import Mathlib

/-!
The class swift::Fingerprint (include/swift/Basic/Fingerprint.h).

A shallow embedding of the `Fingerprint` value class and of the few
`std::string` operations its members call, followed by the properties of its
construction paths, accessor, comparison and hashing.

Conventions of the embedding:

* a `char` is its 8-bit pattern (`Byte`), a `std::string` a list of bytes;
* a constructor that can stop the program (`assert`) or be rejected by the
  compiler (`static_assert`) returns `Except Failure Fingerprint`;
* `assert` is active only in a build with assertions, so the build mode is an
  explicit Boolean argument;
* library functions whose body is outside this header are either parameters
  (`llvm::hash_value`) or modelled under a doc comment that says so
  (`llvm::MD5::MD5Result::digest`).
-/

namespace swift

/-! ## Bytes and `std::string` -/

/-- One `char`, as its 8-bit pattern. -/
abbrev Byte := Fin 256

/-- A `std::string`: a finite sequence of `char`, embedded NULs allowed. -/
abbrev StdString := List Byte

/-- Integral conversion of an unsigned value to `char`: the low eight bits. -/
def charOfNat (n : Nat) : Byte := ⟨n % 256, Nat.mod_lt n (by decide)⟩

/-- A character literal of an ASCII character, such as `'0'`, as a `char`. -/
def charLit (c : Char) : Byte := charOfNat c.toNat

/-- The `char` sequence a compiler emits for one character of a string literal:
its UTF-8 encoding, one byte for an ASCII character and two to four bytes
otherwise. -/
def utf8Encode (c : Char) : List Byte :=
  let n := c.toNat
  if n < 0x80 then [charOfNat n]
  else if n < 0x800 then [charOfNat (0xC0 + n / 64), charOfNat (0x80 + n % 64)]
  else if n < 0x10000 then
    [charOfNat (0xE0 + n / 4096), charOfNat (0x80 + n / 64 % 64), charOfNat (0x80 + n % 64)]
  else
    [charOfNat (0xF0 + n / 262144), charOfNat (0x80 + n / 4096 % 64),
      charOfNat (0x80 + n / 64 % 64), charOfNat (0x80 + n % 64)]

/-- A string literal as the array `const char[N]` it denotes: the encoded bytes
of its characters followed by the terminating NUL, so `N` is the number of
encoded bytes plus one. -/
def cStringLiteral (s : String) : List Byte := s.toList.flatMap utf8Encode ++ [charOfNat 0]

/-- The member `std::string::size()`. -/
def StdString.size (s : StdString) : Nat := s.length

/-- The constructor `std::string(std::initializer_list<char>)`: the string whose
characters are the elements of the list, in order. -/
def StdString.ofInitializerList (il : List Byte) : StdString := il

/-- The constructor `std::string(const char *s, size_type n)`: the first `n`
characters of the array starting at `s`, NULs included. -/
def StdString.ofCharArray (s : List Byte) (n : Nat) : StdString := s.take n

/-- The comparison `operator==` of two `std::string`s: equal sizes and equal
characters at every position. -/
def StdString.eq : StdString → StdString → Bool
  | [], [] => true
  | a :: as, b :: bs => (a.val == b.val) && StdString.eq as bs
  | _, _ => false

/-- The comparison `operator!=` of two `std::string`s. -/
def StdString.ne (a b : StdString) : Bool := !(StdString.eq a b)

/-! ## The class -/

/-- Ways a construction can fail to produce a value. -/
inductive Failure where
  /-- The run-time `assert` fired: the program halts. -/
  | assertionFailure
  /-- The `static_assert` failed: the program is rejected at compile time. -/
  | staticAssertFailure
  deriving DecidableEq, Repr

/-- The class `Fingerprint`: its only data member is `std::string Core`. -/
structure Fingerprint where
  /-- The member `Core`. -/
  Core : StdString
  deriving DecidableEq, Repr

/-- The constant `Fingerprint::DIGEST_LENGTH`. -/
def Fingerprint.DIGEST_LENGTH : Nat := 32

/-- The constructor `explicit Fingerprint(std::string value)`: `Core` is
initialised from `value`, then `assert(Core.size() == DIGEST_LENGTH)` runs when
the build has assertions (`asserts = true`) and is compiled out otherwise. -/
def Fingerprint.ofString (asserts : Bool) (value : StdString) : Except Failure Fingerprint :=
  let core : StdString := value
  if asserts && !(StdString.size core == Fingerprint.DIGEST_LENGTH) then
    Except.error Failure.assertionFailure
  else
    Except.ok ⟨core⟩

/-- The body of the constructor template `Fingerprint(const char (&literal)[N])`
for an array that passed its `static_assert`: `Core{literal, N-1}`. The array
length `N` is the length of `literal`. -/
def Fingerprint.ofLiteralChecked (literal : List Byte)
    (_h : literal.length = Fingerprint.DIGEST_LENGTH + 1) : Fingerprint :=
  ⟨StdString.ofCharArray literal (literal.length - 1)⟩

/-- The constructor template `Fingerprint(const char (&literal)[N])` together
with its `static_assert(N == DIGEST_LENGTH + 1)`: an instantiation with any
other `N` does not compile. -/
def Fingerprint.ofLiteral (literal : List Byte) : Except Failure Fingerprint :=
  if h : literal.length = Fingerprint.DIGEST_LENGTH + 1 then
    Except.ok (Fingerprint.ofLiteralChecked literal h)
  else
    Except.error Failure.staticAssertFailure

/-- The type `llvm::MD5::MD5Result`: a `std::array<uint8_t, 16>`. -/
structure MD5Result where
  /-- The sixteen raw bytes. -/
  Bytes : List Byte
  /-- The array has exactly sixteen elements. -/
  size_eq : Bytes.length = 16
  deriving DecidableEq

/-- The lowercase hexadecimal digit of a value below sixteen: `'0'`..`'9'`, then
`'a'`..`'f'`. -/
def hexDigitLower (n : Nat) : Byte :=
  if n < 10 then charOfNat ((charLit '0').val + n)
  else charOfNat ((charLit 'a').val + (n - 10))

/-- The two lowercase hexadecimal characters of one byte, high nibble first. -/
def hexByteLower (b : Byte) : List Byte :=
  [hexDigitLower (b.val / 16), hexDigitLower (b.val % 16)]

/-- Modelled from the spec: `llvm::MD5::MD5Result::digest()` is declared in
`llvm/Support/MD5.h`, which is not part of this header. Following the
specification of construction path 3, it renders the raw bytes, in order, as
lowercase hexadecimal text, two characters for each byte. -/
def MD5Result.digest (r : MD5Result) : StdString :=
  r.Bytes.flatMap hexByteLower

/-- The constructor `explicit Fingerprint(llvm::MD5::MD5Result &&MD5Value)` with
the rendering function as an argument: `Core{render(MD5Value)}`. -/
def Fingerprint.ofMD5ResultWith (render : MD5Result → StdString) (MD5Value : MD5Result) :
    Fingerprint :=
  ⟨render MD5Value⟩

/-- The constructor `explicit Fingerprint(llvm::MD5::MD5Result &&MD5Value)`:
`Core{MD5Value.digest().str()}`. -/
def Fingerprint.ofMD5Result (MD5Value : MD5Result) : Fingerprint :=
  Fingerprint.ofMD5ResultWith MD5Result.digest MD5Value

/-- The accessor `getRawValue()`: a view of `Core`. -/
def Fingerprint.getRawValue (fp : Fingerprint) : StdString := fp.Core

/-- The friend `operator==`: `lhs.Core == rhs.Core`. -/
def Fingerprint.operatorEq (lhs rhs : Fingerprint) : Bool := StdString.eq lhs.Core rhs.Core

/-- The friend `operator!=`: `lhs.Core != rhs.Core`. -/
def Fingerprint.operatorNe (lhs rhs : Fingerprint) : Bool := StdString.ne lhs.Core rhs.Core

/-- The friend `hash_value`: `llvm::hash_value(fp.Core)`. The library hash of a
`std::string` is an argument; a `hash_code` is modelled as a natural number. -/
def Fingerprint.hash_value (llvmHashValue : StdString → Nat) (fp : Fingerprint) : Nat :=
  llvmHashValue fp.Core

/-- The static member `ZERO()`: the literal constructor applied to the literal of
thirty-two `0` characters, an array of thirty-three `char`. -/
def Fingerprint.ZERO : Fingerprint :=
  Fingerprint.ofLiteralChecked (cStringLiteral "00000000000000000000000000000000") (by decide)

/-- The private default constructor `Fingerprint() : Core{DIGEST_LENGTH, '0'}`.
The initialiser is a braced list, and `std::string` has a constructor taking
`std::initializer_list<char>`; list-initialisation selects that constructor
whenever every element converts to `char` without narrowing. `DIGEST_LENGTH` is
a constant expression whose value fits in a `char`, so both elements convert:
`Core` is built from the two-element list, not by the `(count, char)`
constructor. -/
def Fingerprint.defaultCtor : Fingerprint :=
  ⟨StdString.ofInitializerList [charOfNat Fingerprint.DIGEST_LENGTH, charLit '0']⟩

/-- The string of `n` copies of the character `c`. -/
def repeated (n : Nat) (c : Char) : StdString := List.replicate n (charLit c)


/-- The raw MD5 result whose bytes are `0x00, 0x01, ..., 0x0f`. -/
def md5Counting : MD5Result := ⟨(List.range 16).map charOfNat, by decide⟩

/-- The raw MD5 result whose sixteen bytes are all `0x00`. -/
def md5Zero : MD5Result := ⟨List.replicate 16 (charOfNat 0), by decide⟩

/-- The encoded bytes of a piece of text, without a terminator. -/
def textBytes (s : String) : StdString := s.toList.flatMap utf8Encode

/-- The sixteen lowercase hexadecimal digits, as characters. -/
def hexAlphabet : List Byte := textBytes "0123456789abcdef"

/-! ## Facts about the `std::string` operations -/

theorem StdString.eq_iff (a b : StdString) : StdString.eq a b = true ↔ a = b := by
  induction a generalizing b with
  | nil => cases b <;> simp [StdString.eq]
  | cons x xs ih =>
    cases b with
    | nil => simp [StdString.eq]
    | cons y ys => simp [StdString.eq, ih, Fin.ext_iff]

theorem StdString.eq_self (a : StdString) : StdString.eq a a = true :=
  (StdString.eq_iff a a).mpr rfl

theorem hexDigitLower_eq_alphabet (n : Nat) (h : n < 16) :
    hexAlphabet[n]? = some (hexDigitLower n) := by
  interval_cases n <;> decide

theorem flatMap_hexByteLower_length (l : List Byte) :
    (l.flatMap hexByteLower).length = 2 * l.length := by
  induction l with
  | nil => rfl
  | cons b bs ih => simp [List.flatMap_cons, hexByteLower, ih]; omega

theorem MD5Result.digest_size (r : MD5Result) : StdString.size r.digest = 32 := by
  unfold StdString.size MD5Result.digest
  rw [flatMap_hexByteLower_length, r.size_eq]

theorem flatMap_hexByteLower_getElem? (l : List Byte) (i : Nat) (b : Byte)
    (h : l[i]? = some b) :
    (l.flatMap hexByteLower)[2 * i]? = some (hexDigitLower (b.val / 16)) ∧
    (l.flatMap hexByteLower)[2 * i + 1]? = some (hexDigitLower (b.val % 16)) := by
  induction l generalizing i with
  | nil => simp at h
  | cons x xs ih =>
    cases i with
    | zero =>
      simp at h
      subst h
      simp [List.flatMap_cons, hexByteLower]
    | succ j =>
      simp at h
      have hj := ih j h
      have e1 : 2 * (j + 1) = 2 * j + 2 := by omega
      have e2 : 2 * j + 2 + 1 = 2 * j + 1 + 2 := by omega
      rw [e1, e2]
      simpa [List.flatMap_cons, hexByteLower] using hj

theorem Fingerprint.ofString_of_size (asserts : Bool) (value : StdString)
    (h : StdString.size value = 32) :
    Fingerprint.ofString asserts value = Except.ok ⟨value⟩ := by
  simp [Fingerprint.ofString, Fingerprint.DIGEST_LENGTH, h]

theorem Fingerprint.ofString_asserts_of_size_ne (value : StdString)
    (h : StdString.size value ≠ 32) :
    Fingerprint.ofString true value = Except.error Failure.assertionFailure := by
  simp [Fingerprint.ofString, Fingerprint.DIGEST_LENGTH, h]

theorem hexDigitLower_injective (m n : Fin 16)
    (h : hexDigitLower m.val = hexDigitLower n.val) : m = n := by
  revert m n
  decide

theorem hexByteLower_injective (a b : Byte) (h : hexByteLower a = hexByteLower b) : a = b := by
  unfold hexByteLower at h
  have ha := a.isLt
  have hb := b.isLt
  injection h with hhi htl
  injection htl with hlo _
  have e1 := hexDigitLower_injective ⟨a.val / 16, by omega⟩ ⟨b.val / 16, by omega⟩ hhi
  have e2 := hexDigitLower_injective ⟨a.val % 16, Nat.mod_lt _ (by decide)⟩
    ⟨b.val % 16, Nat.mod_lt _ (by decide)⟩ hlo
  have e1v : a.val / 16 = b.val / 16 := congrArg Fin.val e1
  have e2v : a.val % 16 = b.val % 16 := congrArg Fin.val e2
  apply Fin.ext
  omega

theorem flatMap_hexByteLower_injective (l1 l2 : List Byte)
    (h : l1.flatMap hexByteLower = l2.flatMap hexByteLower) : l1 = l2 := by
  induction l1 generalizing l2 with
  | nil =>
    cases l2 with
    | nil => rfl
    | cons y ys => simp [List.flatMap_cons, hexByteLower] at h
  | cons x xs ih =>
    cases l2 with
    | nil => simp [List.flatMap_cons, hexByteLower] at h
    | cons y ys =>
      rw [List.flatMap_cons, List.flatMap_cons] at h
      have hlen : (hexByteLower x).length = (hexByteLower y).length := rfl
      have hp := List.append_inj h hlen
      rw [hexByteLower_injective x y hp.1, ih ys hp.2]

theorem MD5Result.ext_bytes (r1 r2 : MD5Result) (h : r1.Bytes = r2.Bytes) : r1 = r2 := by
  cases r1; cases r2; cases h; rfl

/-! ## The default constructor and `ZERO` -/

/-- C1 (evaluation of the code): the private default constructor `Fingerprint()`
does not produce `ZERO()`. Its raw value is the two characters with codes 32
(a space) and 48 (the digit zero), its size is 2 and not 32, and `operator==`
against `ZERO()` is false, while `ZERO()` is thirty-two `0` characters. -/
theorem defaultCtor_differs_from_ZERO :
    Fingerprint.getRawValue Fingerprint.defaultCtor = [charOfNat 32, charLit '0'] ∧
    StdString.size (Fingerprint.getRawValue Fingerprint.defaultCtor) = 2 ∧
    Fingerprint.operatorEq Fingerprint.defaultCtor Fingerprint.ZERO = false ∧
    Fingerprint.getRawValue Fingerprint.ZERO = repeated 32 '0' := by
  decide

/-- C7: `ZERO()` is well formed. Its raw value has size 32, it is the string of
thirty-two `0` characters, and `ZERO() == ZERO()` holds. -/
theorem ZERO_well_formed :
    StdString.size (Fingerprint.getRawValue Fingerprint.ZERO) = 32 ∧
    Fingerprint.getRawValue Fingerprint.ZERO = repeated 32 '0' ∧
    Fingerprint.operatorEq Fingerprint.ZERO Fingerprint.ZERO = true := by
  decide

/-! ## Construction from a `std::string` -/

/-- C4: in a build with assertions, `Fingerprint(std::string value)` halts with
an assertion failure exactly when the size of `value` is not 32, succeeds
exactly when it is 32, and a successful construction stores `value` itself,
neither truncated nor padded. -/
theorem ofString_fails_fast (value : StdString) :
    (Fingerprint.ofString true value = Except.error Failure.assertionFailure ↔
      StdString.size value ≠ 32) ∧
    (Fingerprint.ofString true value = Except.ok ⟨value⟩ ↔ StdString.size value = 32) ∧
    (∀ f, Fingerprint.ofString true value = Except.ok f →
      Fingerprint.getRawValue f = value ∧ StdString.size value = 32) := by
  by_cases h : StdString.size value = 32
  · simp [Fingerprint.ofString_of_size true value h, h, Fingerprint.getRawValue]
  · simp [Fingerprint.ofString_asserts_of_size_ne value h, h]

/-- C4 at concrete inputs: a 31-byte and a 33-byte string halt, a 32-byte string
is stored unchanged. -/
theorem ofString_fails_fast_witness :
    Fingerprint.ofString true (repeated 31 'a') = Except.error Failure.assertionFailure ∧
    Fingerprint.ofString true (repeated 33 'a') = Except.error Failure.assertionFailure ∧
    Fingerprint.ofString true (repeated 32 'a') = Except.ok ⟨repeated 32 'a'⟩ :=
  ⟨(ofString_fails_fast (repeated 31 'a')).1.mpr (by decide),
   (ofString_fails_fast (repeated 33 'a')).1.mpr (by decide),
   (ofString_fails_fast (repeated 32 'a')).2.1.mpr (by decide)⟩

/-- C8: accessor round trip. For every string `s` of size 32, in either build
mode, `Fingerprint(s)` is constructed and `getRawValue()` returns exactly `s`. -/
theorem getRawValue_ofString (asserts : Bool) (s : StdString)
    (h : StdString.size s = 32) :
    ∃ f, Fingerprint.ofString asserts s = Except.ok f ∧ Fingerprint.getRawValue f = s :=
  ⟨⟨s⟩, Fingerprint.ofString_of_size asserts s h, rfl⟩

/-- C8 at a concrete 32-byte string. -/
theorem getRawValue_ofString_witness :
    ∃ f, Fingerprint.ofString true (repeated 32 'f') = Except.ok f ∧
      Fingerprint.getRawValue f = repeated 32 'f' :=
  getRawValue_ofString true (repeated 32 'f') (by decide)

/-- C3: for all strings `a` and `b` of size 32, both constructions succeed (in
either build mode) and `operator==` on the results is true exactly when `a`
and `b` are the same byte sequence. -/
theorem operatorEq_ofString_iff (asserts : Bool) (a b : StdString)
    (ha : StdString.size a = 32) (hb : StdString.size b = 32) :
    ∃ fa fb, Fingerprint.ofString asserts a = Except.ok fa ∧
      Fingerprint.ofString asserts b = Except.ok fb ∧
      (Fingerprint.operatorEq fa fb = true ↔ a = b) :=
  ⟨⟨a⟩, ⟨b⟩, Fingerprint.ofString_of_size asserts a ha,
    Fingerprint.ofString_of_size asserts b hb, StdString.eq_iff a b⟩

/-- C3 at two concrete 32-byte strings that differ. -/
theorem operatorEq_ofString_iff_witness :
    ∃ fa fb, Fingerprint.ofString true (repeated 32 'a') = Except.ok fa ∧
      Fingerprint.ofString true (repeated 32 'b') = Except.ok fb ∧
      (Fingerprint.operatorEq fa fb = true ↔ repeated 32 'a' = repeated 32 'b') :=
  operatorEq_ofString_iff true (repeated 32 'a') (repeated 32 'b') (by decide) (by decide)

/-! ## Construction from a literal -/

/-- C9: the literal constructor accepts an array of `N` characters (terminator
included) exactly when `N = 33` and is rejected by the static assertion
otherwise; when accepted, the stored digest is the first 32 characters of the
array, has size 32, and is the value that `Fingerprint(std::string)` stores for
those 32 characters in either build mode. -/
theorem ofLiteral_static_check (literal : List Byte) :
    ((∃ f, Fingerprint.ofLiteral literal = Except.ok f) ↔ literal.length = 33) ∧
    (Fingerprint.ofLiteral literal = Except.error Failure.staticAssertFailure ↔
      literal.length ≠ 33) ∧
    (∀ f, Fingerprint.ofLiteral literal = Except.ok f →
      Fingerprint.getRawValue f = literal.take 32 ∧
      StdString.size (Fingerprint.getRawValue f) = 32 ∧
      ∀ asserts, Fingerprint.ofString asserts (literal.take 32) = Except.ok f) := by
  by_cases h : literal.length = 33
  · have hok : Fingerprint.ofLiteral literal = Except.ok ⟨literal.take 32⟩ := by
      simp [Fingerprint.ofLiteral, Fingerprint.ofLiteralChecked, StdString.ofCharArray,
        Fingerprint.DIGEST_LENGTH, h]
    have hsz : StdString.size (literal.take 32) = 32 := by
      simp [StdString.size, h]
    refine ⟨by simp [hok, h], by simp [hok, h], ?_⟩
    intro f hf
    rw [hok] at hf
    injection hf with hf
    subst hf
    exact ⟨rfl, hsz, fun asserts => Fingerprint.ofString_of_size asserts _ hsz⟩
  · have herr : Fingerprint.ofLiteral literal = Except.error Failure.staticAssertFailure := by
      simp [Fingerprint.ofLiteral, Fingerprint.DIGEST_LENGTH, h]
    simp [herr, h]

/-- C9 at the literal of `ZERO()`: it is accepted and stores what the string
constructor stores for its 32 characters. -/
theorem ofLiteral_static_check_witness :
    Fingerprint.getRawValue Fingerprint.ZERO =
      (cStringLiteral "00000000000000000000000000000000").take 32 ∧
    StdString.size (Fingerprint.getRawValue Fingerprint.ZERO) = 32 ∧
    ∀ asserts, Fingerprint.ofString asserts
      ((cStringLiteral "00000000000000000000000000000000").take 32) =
        Except.ok Fingerprint.ZERO :=
  (ofLiteral_static_check (cStringLiteral "00000000000000000000000000000000")).2.2
    Fingerprint.ZERO (by rfl)

/-! ## Construction from an MD5 result -/

/-- C5: for every raw 16-byte MD5 result `r`, the raw value of
`Fingerprint(MD5Result r)` has 32 characters; for every position `i` of `r`
holding the byte `b`, characters `2 i` and `2 i + 1` are the lowercase
hexadecimal digits of the high and of the low nibble of `b`; the raw value is
never the raw bytes; and the bytes `0x00 .. 0x0f` give
`000102030405060708090a0b0c0d0e0f`. -/
theorem ofMD5Result_lowercase_hex (r : MD5Result) :
    StdString.size (Fingerprint.getRawValue (Fingerprint.ofMD5Result r)) = 32 ∧
    (∀ i b, r.Bytes[i]? = some b →
      (Fingerprint.getRawValue (Fingerprint.ofMD5Result r))[2 * i]? =
        hexAlphabet[b.val / 16]? ∧
      (Fingerprint.getRawValue (Fingerprint.ofMD5Result r))[2 * i + 1]? =
        hexAlphabet[b.val % 16]?) ∧
    Fingerprint.getRawValue (Fingerprint.ofMD5Result r) ≠ r.Bytes ∧
    Fingerprint.getRawValue (Fingerprint.ofMD5Result md5Counting) =
      textBytes "000102030405060708090a0b0c0d0e0f" := by
  have hsz : StdString.size (Fingerprint.getRawValue (Fingerprint.ofMD5Result r)) = 32 :=
    MD5Result.digest_size r
  refine ⟨hsz, ?_, ?_, by decide⟩
  · intro i b hb
    have hb16 : b.val / 16 < 16 := by have := b.isLt; omega
    have hm16 : b.val % 16 < 16 := Nat.mod_lt _ (by decide)
    rw [hexDigitLower_eq_alphabet _ hb16, hexDigitLower_eq_alphabet _ hm16]
    exact flatMap_hexByteLower_getElem? r.Bytes i b hb
  · intro heq
    have h16 := r.size_eq
    rw [← heq] at h16
    unfold StdString.size at hsz
    omega

/-- C5 at the result `0x00 .. 0x0f`, position 10 (the byte `0x0a`): characters
20 and 21 are the digits `0` and `a`. -/
theorem ofMD5Result_lowercase_hex_witness :
    (Fingerprint.getRawValue (Fingerprint.ofMD5Result md5Counting))[2 * 10]? =
      hexAlphabet[(charOfNat 10).val / 16]? ∧
    (Fingerprint.getRawValue (Fingerprint.ofMD5Result md5Counting))[2 * 10 + 1]? =
      hexAlphabet[(charOfNat 10).val % 16]? :=
  (ofMD5Result_lowercase_hex md5Counting).2.1 10 (charOfNat 10) (by decide)

/-! ## Hashing -/

/-- C6: `hash_value(fp)` is the library hash applied to the digest string alone,
so whatever that hash function is, two fingerprints that compare equal under
`operator==` have equal hash values. -/
theorem hash_value_consistent (llvmHashValue : StdString → Nat) (f1 f2 : Fingerprint) :
    Fingerprint.hash_value llvmHashValue f1 = llvmHashValue (Fingerprint.getRawValue f1) ∧
    (Fingerprint.operatorEq f1 f2 = true →
      Fingerprint.hash_value llvmHashValue f1 = Fingerprint.hash_value llvmHashValue f2) := by
  refine ⟨rfl, fun h => ?_⟩
  have e : f1.Core = f2.Core := (StdString.eq_iff _ _).mp h
  unfold Fingerprint.hash_value
  rw [e]

/-- C6 at `ZERO()` and the fingerprint of thirty-two `0` characters, with the
sum of the character codes as the hash function. -/
theorem hash_value_consistent_witness :
    Fingerprint.hash_value (fun s => (s.map Fin.val).sum) Fingerprint.ZERO =
      Fingerprint.hash_value (fun s => (s.map Fin.val).sum) ⟨repeated 32 '0'⟩ :=
  (hash_value_consistent (fun s => (s.map Fin.val).sum) Fingerprint.ZERO
    ⟨repeated 32 '0'⟩).2 (by decide)

/-! ## The length invariant -/

/-- C2: every fingerprint produced by a public construction path in a build with
assertions (from a `std::string`, from a literal, from an MD5 result, or by
`ZERO()`) has a raw value of size exactly `DIGEST_LENGTH`, which is 32. -/
theorem length_invariant (f : Fingerprint)
    (h : (∃ value, Fingerprint.ofString true value = Except.ok f) ∨
         (∃ literal, Fingerprint.ofLiteral literal = Except.ok f) ∨
         (∃ r, Fingerprint.ofMD5Result r = f) ∨
         f = Fingerprint.ZERO) :
    StdString.size (Fingerprint.getRawValue f) = Fingerprint.DIGEST_LENGTH ∧
    Fingerprint.DIGEST_LENGTH = 32 := by
  refine ⟨?_, rfl⟩
  rcases h with ⟨value, hv⟩ | ⟨literal, hl⟩ | ⟨r, hr⟩ | hz
  · by_cases hs : StdString.size value = 32
    · rw [Fingerprint.ofString_of_size true value hs] at hv
      injection hv with hv
      subst hv
      exact hs
    · rw [Fingerprint.ofString_asserts_of_size_ne value hs] at hv
      cases hv
  · unfold Fingerprint.ofLiteral at hl
    split at hl
    · rename_i hlen
      injection hl with hl
      subst hl
      simp [Fingerprint.getRawValue, Fingerprint.ofLiteralChecked, StdString.ofCharArray,
        StdString.size, hlen]
    · cases hl
  · subst hr
    exact MD5Result.digest_size r
  · subst hz
    decide

/-- C2 at the fingerprint built from the 32-byte string of `a` characters. -/
theorem length_invariant_witness :
    StdString.size (Fingerprint.getRawValue ⟨repeated 32 'a'⟩) = Fingerprint.DIGEST_LENGTH ∧
    Fingerprint.DIGEST_LENGTH = 32 :=
  length_invariant ⟨repeated 32 'a'⟩ (Or.inl ⟨repeated 32 'a', by rfl⟩)

/-! ## `ZERO` as a digest, inequality, unchecked builds, injectivity -/

/-- C11: `ZERO()` is a real digest value. The raw MD5 result whose sixteen bytes
are all zero is constructed into a fingerprint that compares equal to `ZERO()`
under `operator==`, with the same raw value. -/
theorem ZERO_is_a_digest :
    ∃ r : MD5Result, r.Bytes = List.replicate 16 (charOfNat 0) ∧
      Fingerprint.operatorEq (Fingerprint.ofMD5Result r) Fingerprint.ZERO = true ∧
      Fingerprint.getRawValue (Fingerprint.ofMD5Result r) =
        Fingerprint.getRawValue Fingerprint.ZERO :=
  ⟨md5Zero, rfl, by decide, by decide⟩

/-- C12: inequality is the exact negation of equality. For all fingerprints,
`operator!=` is true exactly when `operator==` is false, which is exactly when
the two raw values differ. -/
theorem operatorNe_iff_not_operatorEq (f1 f2 : Fingerprint) :
    (Fingerprint.operatorNe f1 f2 = true ↔ Fingerprint.operatorEq f1 f2 = false) ∧
    (Fingerprint.operatorNe f1 f2 = false ↔ Fingerprint.operatorEq f1 f2 = true) ∧
    (Fingerprint.operatorNe f1 f2 = true ↔
      Fingerprint.getRawValue f1 ≠ Fingerprint.getRawValue f2) := by
  have hiff := StdString.eq_iff f1.Core f2.Core
  unfold Fingerprint.operatorNe Fingerprint.operatorEq StdString.ne Fingerprint.getRawValue
  cases hEq : StdString.eq f1.Core f2.Core
  · rw [hEq] at hiff
    simpa using hiff
  · rw [hEq] at hiff
    simpa using hiff

/-- C13: in a build without assertions `Fingerprint(std::string value)` checks
nothing. For every string of every length it produces a fingerprint whose raw
value is `value` itself, of the same size, neither truncated nor padded. -/
theorem ofString_unchecked (value : StdString) :
    ∃ f, Fingerprint.ofString false value = Except.ok f ∧
      Fingerprint.getRawValue f = value ∧
      StdString.size (Fingerprint.getRawValue f) = StdString.size value :=
  ⟨⟨value⟩, by simp [Fingerprint.ofString], rfl, rfl⟩

/-- C13 at a 31-byte string: the construction succeeds and keeps the 31 bytes. -/
theorem ofString_unchecked_witness :
    ∃ f, Fingerprint.ofString false (repeated 31 'a') = Except.ok f ∧
      Fingerprint.getRawValue f = repeated 31 'a' ∧
      StdString.size (Fingerprint.getRawValue f) = StdString.size (repeated 31 'a') :=
  ofString_unchecked (repeated 31 'a')

/-- C14: the raw-to-rendered construction loses no information. For all raw
16-byte MD5 results, the two fingerprints compare equal under `operator==`
exactly when the results are equal, that is, have the same sixteen bytes. -/
theorem operatorEq_ofMD5Result_iff (r1 r2 : MD5Result) :
    (Fingerprint.operatorEq (Fingerprint.ofMD5Result r1) (Fingerprint.ofMD5Result r2) = true ↔
      r1 = r2) ∧
    (r1 = r2 ↔ r1.Bytes = r2.Bytes) := by
  have hb : r1 = r2 ↔ r1.Bytes = r2.Bytes :=
    ⟨fun h => congrArg MD5Result.Bytes h, MD5Result.ext_bytes r1 r2⟩
  refine ⟨?_, hb⟩
  constructor
  · intro h
    have e : r1.Bytes.flatMap hexByteLower = r2.Bytes.flatMap hexByteLower :=
      (StdString.eq_iff _ _).mp h
    exact MD5Result.ext_bytes r1 r2 (flatMap_hexByteLower_injective _ _ e)
  · intro h
    subst h
    exact StdString.eq_self _

end swift
